import Mathlib

/-!
Verification of the kapacitor task-lifecycle orchestrator
(src/kapacitor/client.go of the influxdb/chronograf repository).

The Go package is shallowly embedded: the orchestrator Client is a pure
value of connection configuration plus its two injected dependencies
(the identity allocator and the script translator).  The remote task
engine (package client, external to the repository) is abstracted as a
record of state-threading stub functions over an arbitrary state type,
and every orchestrator operation additionally returns the ordered list
of remote calls it issued, so that call-sequencing properties can be
stated.  Errors from external collaborators are opaque strings, which
the orchestrator propagates unchanged (constructor Err.external) except
where the source substitutes chronograf.ErrAlertNotFound
(constructor Err.alertNotFound).
-/

namespace Kapacitor

/-- Query configuration of an alert rule (chronograf.QueryConfig, used by
client.go through the fields Database, RetentionPolicy and RawText).
The struct itself is not under src/; these three fields are the ones the
orchestrator reads. -/
structure QueryConfig where
  Database : String := ""
  RetentionPolicy : String := ""
  RawText : String := ""
  deriving DecidableEq

/-- Modelled from the spec: chronograf.AlertRule is not under src/; the spec
describes it as identifier, display name, a query configuration and other
rule parameters opaque to this core.  The opaque remainder is collapsed
into the single field Details.  Go zero values are the field defaults. -/
structure AlertRule where
  ID : String := ""
  Name : String := ""
  Query : QueryConfig := {}
  TICKScript : String := ""
  Details : String := ""
  deriving DecidableEq

/-- Status of a kapacitor task (client.TaskStatus: Enabled or Disabled). -/
inductive TaskStatus where
  | enabled
  | disabled
  deriving DecidableEq

/-- Rendering of a task status as a string (client.TaskStatus.String). -/
def TaskStatus.toString : TaskStatus → String
  | .enabled => "enabled"
  | .disabled => "disabled"

/-- Kind of a kapacitor task (client.TaskType: StreamTask or BatchTask). -/
inductive TaskType where
  | stream
  | batch
  deriving DecidableEq

/-- A database / retention-policy binding (client.DBRP). -/
structure DBRP where
  Database : String := ""
  RetentionPolicy : String := ""
  deriving DecidableEq

/-- A relative reference to a remote resource (client.Link). -/
structure Link where
  Href : String := ""
  deriving DecidableEq

/-- Payload of a create request (client.CreateTaskOptions).  The field
named Type in Go is called Typ here because Type is a Lean keyword. -/
structure CreateTaskOptions where
  ID : String := ""
  Typ : TaskType
  DBRPs : List DBRP := []
  TICKscript : String := ""
  Status : TaskStatus
  deriving DecidableEq

/-- Payload of an update request (client.UpdateTaskOptions).  Every field
is optional in the engine wire format (Go zero value with omitempty means
absent); an absent field leaves the corresponding task attribute
untouched.  The field named Type in Go is called Typ here. -/
structure UpdateTaskOptions where
  TICKscript : Option String := none
  Status : Option TaskStatus := none
  Typ : Option TaskType := none
  DBRPs : Option (List DBRP) := none
  deriving DecidableEq

/-- Payload of a list request (client.ListTasksOptions); Fields is the
optional field-projection filter. -/
structure ListTasksOptions where
  Fields : List String := []
  deriving DecidableEq

/-- A task as reported by the remote engine (client.Task, response side).
Only the fields client.go reads are modelled. -/
structure RemoteTask where
  ID : String := ""
  Link : Link := {}
  TICKscript : String := ""
  Status : TaskStatus := .enabled
  deriving DecidableEq

/-- Credentials passed to the engine connection (client.Credentials with
UserAuthentication method). -/
structure Credentials where
  Username : String := ""
  Password : String := ""
  deriving DecidableEq

/-- Connection configuration handed to client.New (client.Config). -/
structure Config where
  URL : String := ""
  Creds : Option Credentials := none
  deriving DecidableEq

/-- One remote engine call, as recorded in an operation's trace. -/
inductive Call where
  | createTask : CreateTaskOptions → Call
  | updateTask : Link → UpdateTaskOptions → Call
  | deleteTask : Link → Call
  | getTask : Link → Call
  | listTasks : ListTasksOptions → Call
  deriving DecidableEq

/-- Error observed by a caller of the orchestrator: either an error of an
external collaborator propagated unchanged, or the sentinel
chronograf.ErrAlertNotFound substituted by Get on fetch failure. -/
inductive Err where
  | external : String → Err
  | alertNotFound : Err
  deriving DecidableEq

/-- The remote task engine, abstracted as stub functions threading a state
of arbitrary type sigma.  newClient models client.New, which only
validates the configuration and performs no remote call, so it does not
thread the state.  A call that returns an error is understood to leave
the engine state it returns as the state after the failed call. -/
structure Engine (σ : Type) where
  newClient : Config → Except String Unit
  createTask : CreateTaskOptions → σ → Except String RemoteTask × σ
  updateTask : Link → UpdateTaskOptions → σ → Except String RemoteTask × σ
  deleteTask : Link → σ → Except String Unit × σ
  getTask : Link → σ → Except String RemoteTask × σ
  listTasks : ListTasksOptions → σ → Except String (List RemoteTask) × σ

/-- The identity allocator dependency (chronograf.ID interface). -/
structure IDGenerator where
  Generate : Except String String

/-- The script translator dependency (chronograf.Ticker interface);
generates a TICKscript from an alert rule. -/
structure Ticker where
  Generate : AlertRule → Except String String

/-- The orchestrator (kapacitor.Client): connection configuration plus
the identity allocator and translator dependencies. -/
structure Client where
  URL : String := ""
  Username : String := ""
  Password : String := ""
  ID : IDGenerator
  Ticker : Ticker

/-- Result of one orchestrator operation: the value returned to the
caller, the ordered trace of remote calls issued, the receiver Client
after the call (the source assigns no receiver field, so it is always
the input Client), and the engine state after the call. -/
structure Res (σ : Type) (α : Type) where
  val : α
  calls : List Call
  client : Client
  state : σ

/-- Prefix prepended to the ID of all alerts (constant Prefix). -/
def Prefix : String := "chronograf-v1-"

/-- Modelled from the spec: constant HTTPEndpoint (the name of the HTTP
output node) is defined elsewhere in the package, outside src/; the spec
gives only the reference shape with an opaque http-output-node-name. -/
def HTTPEndpoint : String := "output"

/-- Href returns the link to a kapacitor task given an id. -/
def Client.Href (_c : Client) (ID : String) : String :=
  "/kapacitor/v1/tasks/" ++ ID

/-- HrefOutput returns the link to a kapacitor task httpOut node given
an id. -/
def Client.HrefOutput (_c : Client) (ID : String) : String :=
  "/kapacitor/v1/tasks/" ++ ID ++ "/" ++ HTTPEndpoint

/-- toTask classifies a query configuration as a stream task when its raw
text is empty and as a batch task otherwise. -/
def toTask (q : QueryConfig) : TaskType :=
  if q.RawText = "" then TaskType.stream else TaskType.batch

/-- kapaClient builds the engine connection: credentials are attached
exactly when the username is nonempty, and client.New (modelled by
Engine.newClient) validates the resulting configuration. -/
def Client.kapaClient {σ : Type} (c : Client) (eng : Engine σ) : Except String Unit :=
  let creds : Option Credentials :=
    if c.Username ≠ "" then some { Username := c.Username, Password := c.Password } else none
  eng.newClient { URL := c.URL, Creds := creds }

/-- A task as returned by the orchestrator (kapacitor.Task).  The Rule
field defaults to the zero-value rule, matching Go composite literals
that omit it. -/
structure Task where
  ID : String := ""
  Href : String := ""
  HrefOutput : String := ""
  Rule : AlertRule := {}
  TICKScript : String := ""
  deriving DecidableEq

/-- Options of the create call issued by Create, with the task kind
computed by toTask, a single binding taken from the rule's query, and
initial status enabled. -/
def createOpts (kapaID : String) (script : String) (rule : AlertRule) : CreateTaskOptions :=
  { ID := kapaID
    Typ := toTask rule.Query
    DBRPs := [{ Database := rule.Query.Database, RetentionPolicy := rule.Query.RetentionPolicy }]
    TICKscript := script
    Status := TaskStatus.enabled }

/-- Options of the first update call issued by Update: the new script,
status forced to disabled, the recomputed task kind, and the new
binding. -/
def updateOpts (script : String) (rule : AlertRule) : UpdateTaskOptions :=
  { TICKscript := some script
    Status := some TaskStatus.disabled
    Typ := some (toTask rule.Query)
    DBRPs := some [{ Database := rule.Query.Database, RetentionPolicy := rule.Query.RetentionPolicy }] }

/-- Create builds and POSTs a tickscript to kapacitor: allocate an id,
prefix it, translate the rule, and issue a single create call with
status enabled. -/
def Client.Create {σ : Type} (c : Client) (eng : Engine σ) (rule : AlertRule) (s : σ) :
    Res σ (Except Err Task) :=
  match c.kapaClient eng with
  | .error e => ⟨.error (.external e), [], c, s⟩
  | .ok _ =>
    match c.ID.Generate with
    | .error e => ⟨.error (.external e), [], c, s⟩
    | .ok id =>
      match c.Ticker.Generate rule with
      | .error e => ⟨.error (.external e), [], c, s⟩
      | .ok script =>
        let kapaID := Prefix ++ id
        let rule := { rule with ID := kapaID }
        match eng.createTask (createOpts kapaID script rule) s with
        | (.error e, s') => ⟨.error (.external e), [.createTask (createOpts kapaID script rule)], c, s'⟩
        | (.ok task, s') =>
          ⟨.ok { ID := kapaID
                 Href := task.Link.Href
                 HrefOutput := c.HrefOutput kapaID
                 TICKScript := script
                 Rule := rule },
           [.createTask (createOpts kapaID script rule)], c, s'⟩

/-- Delete removes a tickscript task from kapacitor. -/
def Client.Delete {σ : Type} (c : Client) (eng : Engine σ) (href : String) (s : σ) :
    Res σ (Option Err) :=
  match c.kapaClient eng with
  | .error e => ⟨some (.external e), [], c, s⟩
  | .ok _ =>
    match eng.deleteTask { Href := href } s with
    | (.error e, s') => ⟨some (.external e), [.deleteTask { Href := href }], c, s'⟩
    | (.ok _, s') => ⟨none, [.deleteTask { Href := href }], c, s'⟩

/-- updateStatus issues an update request whose options carry only the
requested status; the returned task takes id, reference and script from
the engine response and leaves Rule at its zero value. -/
def Client.updateStatus {σ : Type} (c : Client) (eng : Engine σ) (href : String)
    (status : TaskStatus) (s : σ) : Res σ (Except Err Task) :=
  match c.kapaClient eng with
  | .error e => ⟨.error (.external e), [], c, s⟩
  | .ok _ =>
    let opts : UpdateTaskOptions := { Status := some status }
    match eng.updateTask { Href := href } opts s with
    | (.error e, s') => ⟨.error (.external e), [.updateTask { Href := href } opts], c, s'⟩
    | (.ok task, s') =>
      ⟨.ok { ID := task.ID
             Href := task.Link.Href
             HrefOutput := c.HrefOutput task.ID
             TICKScript := task.TICKscript },
       [.updateTask { Href := href } opts], c, s'⟩

/-- Disable changes the tickscript status to disabled for a given href. -/
def Client.Disable {σ : Type} (c : Client) (eng : Engine σ) (href : String) (s : σ) :
    Res σ (Except Err Task) :=
  c.updateStatus eng href TaskStatus.disabled s

/-- Enable changes the tickscript status to enabled for a given href. -/
def Client.Enable {σ : Type} (c : Client) (eng : Engine σ) (href : String) (s : σ) :
    Res σ (Except Err Task) :=
  c.updateStatus eng href TaskStatus.enabled s

/-- Go map assignment on an association list: an existing entry with the
key is overwritten in place, otherwise the pair is appended. -/
def mapInsert {α : Type} (m : List (String × α)) (k : String) (v : α) : List (String × α) :=
  if m.any (fun p => p.1 == k) then m.map (fun p => if p.1 == k then (k, v) else p)
  else m ++ [(k, v)]

/-- AllStatus returns the status of all tasks in kapacitor, requesting
only the status field from the list endpoint. -/
def Client.AllStatus {σ : Type} (c : Client) (eng : Engine σ) (s : σ) :
    Res σ (Except Err (List (String × String))) :=
  match c.kapaClient eng with
  | .error e => ⟨.error (.external e), [], c, s⟩
  | .ok _ =>
    let opts : ListTasksOptions := { Fields := ["status"] }
    match eng.listTasks opts s with
    | (.error e, s') => ⟨.error (.external e), [.listTasks opts], c, s'⟩
    | (.ok tasks, s') =>
      ⟨.ok (tasks.foldl (fun m task => mapInsert m task.ID task.Status.toString) []),
       [.listTasks opts], c, s'⟩

/-- Status returns the status of a task in kapacitor; on failure the
empty string is returned together with the error. -/
def Client.Status {σ : Type} (c : Client) (eng : Engine σ) (href : String) (s : σ) :
    Res σ (String × Option Err) :=
  match c.kapaClient eng with
  | .error e => ⟨("", some (.external e)), [], c, s⟩
  | .ok _ =>
    match eng.getTask { Href := href } s with
    | (.error e, s') => ⟨("", some (.external e)), [.getTask { Href := href }], c, s'⟩
    | (.ok task, s') => ⟨(task.Status.toString, none), [.getTask { Href := href }], c, s'⟩

/-- Conversion of a fetched task's script into a rule, shared by Get and
All: when the reverser (package function Reverse, outside src/ and
abstracted here as the parameter rev) fails, a degraded rule carrying
the task identifier as both ID and Name and the verbatim script is
built; when it succeeds, the reconstructed rule's ID and TICKScript are
overwritten with the task identifier and the fetched script. -/
def ruleFromScript (rev : String → Except String AlertRule) (taskID : String)
    (script : String) : AlertRule :=
  match rev script with
  | .error _ => { ID := taskID, Name := taskID, TICKScript := script }
  | .ok rule => { rule with ID := taskID, TICKScript := script }

/-- All returns all tasks in kapacitor, converting each task's script
back into a rule independently, with per-entry degradation on reverse
failure. -/
def Client.All {σ : Type} (c : Client) (rev : String → Except String AlertRule)
    (eng : Engine σ) (s : σ) : Res σ (Except Err (List (String × AlertRule))) :=
  match c.kapaClient eng with
  | .error e => ⟨.error (.external e), [], c, s⟩
  | .ok _ =>
    let opts : ListTasksOptions := {}
    match eng.listTasks opts s with
    | (.error e, s') => ⟨.error (.external e), [.listTasks opts], c, s'⟩
    | (.ok tasks, s') =>
      ⟨.ok (tasks.foldl
              (fun m task => mapInsert m task.ID (ruleFromScript rev task.ID task.TICKscript)) []),
       [.listTasks opts], c, s'⟩

/-- Get returns a single alert in kapacitor.  A fetch failure is mapped
to the sentinel chronograf.ErrAlertNotFound with the zero-value rule;
a reverse-translation failure is degraded, not surfaced. -/
def Client.Get {σ : Type} (c : Client) (rev : String → Except String AlertRule)
    (eng : Engine σ) (id : String) (s : σ) : Res σ (AlertRule × Option Err) :=
  match c.kapaClient eng with
  | .error e => ⟨({}, some (.external e)), [], c, s⟩
  | .ok _ =>
    let href := c.Href id
    match eng.getTask { Href := href } s with
    | (.error _, s') => ⟨({}, some Err.alertNotFound), [.getTask { Href := href }], c, s'⟩
    | (.ok task, s') =>
      ⟨(ruleFromScript rev task.ID task.TICKscript, none), [.getTask { Href := href }], c, s'⟩

/-- Update changes the tickscript of a given id: regenerate the script,
issue one update call that applies script, bindings and kind while
forcing status disabled, then (only on success of that call) enable the
task again. -/
def Client.Update {σ : Type} (c : Client) (eng : Engine σ) (href : String)
    (rule : AlertRule) (s : σ) : Res σ (Except Err Task) :=
  match c.kapaClient eng with
  | .error e => ⟨.error (.external e), [], c, s⟩
  | .ok _ =>
    match c.Ticker.Generate rule with
    | .error e => ⟨.error (.external e), [], c, s⟩
    | .ok script =>
      match eng.updateTask { Href := href } (updateOpts script rule) s with
      | (.error e, s') => ⟨.error (.external e), [.updateTask { Href := href } (updateOpts script rule)], c, s'⟩
      | (.ok task, s') =>
        let er := c.Enable eng href s'
        match er.val with
        | .error e => ⟨.error e, .updateTask { Href := href } (updateOpts script rule) :: er.calls, c, er.state⟩
        | .ok _ =>
          ⟨.ok { ID := task.ID
                 Href := task.Link.Href
                 HrefOutput := c.HrefOutput task.ID
                 TICKScript := script
                 Rule := rule },
           .updateTask { Href := href } (updateOpts script rule) :: er.calls, c, er.state⟩

/-- Modelled from the spec: the remote engine's stored view of one task
(the engine itself is outside the repository; the spec describes its
task API in its component and interface sections). -/
structure EngineTask where
  id : String
  status : TaskStatus
  script : String
  typ : TaskType
  dbrps : List DBRP
  deriving DecidableEq

/-- Modelled from the spec: the remote engine's state is its collection
of tasks. -/
abbrev EngineState := List EngineTask

/-- Modelled from the spec: the engine addresses a task by the relative
reference of the documented shape. -/
def hrefOf (id : String) : String :=
  "/kapacitor/v1/tasks/" ++ id

/-- Lookup of the stored task addressed by a reference. -/
def findTask (s : EngineState) (href : String) : Option EngineTask :=
  s.find? (fun t => hrefOf t.id == href)

/-- Modelled from the spec: an update payload applies exactly its present
fields to the stored task; absent fields leave the attribute untouched. -/
def applyOpts (t : EngineTask) (opts : UpdateTaskOptions) : EngineTask :=
  { t with
    script := opts.TICKscript.getD t.script
    status := opts.Status.getD t.status
    typ := opts.Typ.getD t.typ
    dbrps := opts.DBRPs.getD t.dbrps }

/-- Modelled from the spec: the engine's update endpoint; a failed call
leaves the state unchanged, a successful call replaces the addressed
task by the task with the payload applied and reports it back. -/
def refUpdateTask (l : Link) (opts : UpdateTaskOptions) (s : EngineState) :
    Except String RemoteTask × EngineState :=
  match findTask s l.Href with
  | none => (.error "task not found", s)
  | some t =>
    let t' := applyOpts t opts
    (.ok { ID := t.id, Link := { Href := hrefOf t.id }, TICKscript := t'.script, Status := t'.status },
     s.map (fun u => if hrefOf u.id == l.Href then t' else u))

/-- Modelled from the spec: a remote engine stubbed to fail only on the
enable step.  An update call whose payload carries no script is exactly
the pure status change issued by Enable and is rejected with an error,
leaving the state unchanged; the first-phase update of Update, which
always carries a script, is served by the reference update endpoint. -/
def enableFailEngine : Engine EngineState where
  newClient := fun _ => .ok ()
  createTask := fun _ s => (.error "create unsupported", s)
  updateTask := fun l opts s =>
    if opts.TICKscript = none then (.error "enable failed", s)
    else refUpdateTask l opts s
  deleteTask := fun _ s => (.error "delete unsupported", s)
  getTask := fun _ s => (.error "get unsupported", s)
  listTasks := fun _ s => (.error "list unsupported", s)

/-- A concrete identity allocator that succeeds with a fixed token. -/
def wGen : IDGenerator := { Generate := .ok "tok" }

/-- A concrete identity allocator that fails. -/
def wGenFail : IDGenerator := { Generate := .error "nogen" }

/-- A concrete translator that succeeds with a fixed script. -/
def wTicker : Ticker := { Generate := fun _ => .ok "scr" }

/-- A concrete translator that fails. -/
def wTickerFail : Ticker := { Generate := fun _ => .error "notrans" }

/-- A concrete orchestrator configuration used to exercise the
operations on concrete inputs. -/
def wClient : Client :=
  { URL := "http://localhost:9092", Username := "", Password := "", ID := wGen, Ticker := wTicker }

/-- The concrete orchestrator with a failing identity allocator. -/
def wClientGenFail : Client := { wClient with ID := wGenFail }

/-- The concrete orchestrator with a failing translator. -/
def wClientTransFail : Client := { wClient with Ticker := wTickerFail }

/-- A concrete streaming alert rule. -/
def wRule : AlertRule :=
  { Name := "cpu", Query := { Database := "telegraf", RetentionPolicy := "autogen", RawText := "" } }

/-- A concrete remote task as reported by the engine. -/
def wTask : RemoteTask :=
  { ID := "chronograf-v1-tok"
    Link := { Href := "/kapacitor/v1/tasks/chronograf-v1-tok" }
    TICKscript := "scr"
    Status := .enabled }

/-- A concrete stub engine over the unit state that answers every call
successfully with the concrete remote task. -/
def wEngine : Engine Unit where
  newClient := fun _ => .ok ()
  createTask := fun _ s => (.ok wTask, s)
  updateTask := fun _ _ s => (.ok wTask, s)
  deleteTask := fun _ s => (.ok (), s)
  getTask := fun _ s => (.ok wTask, s)
  listTasks := fun _ s => (.ok [wTask], s)

/-- A concrete reverser that reconstructs the concrete rule from the
concrete script and fails on every other script. -/
def wRev : String → Except String AlertRule :=
  fun scr => if scr = "scr" then .ok wRule else .error "unparseable"

/-- The concrete stored engine task behind the concrete reference. -/
def wStored : EngineTask :=
  { id := "chronograf-v1-tok", status := .enabled, script := "old", typ := .stream, dbrps := [] }

/-- The options of the create call issued on the concrete inputs. -/
def wCreateOpts : CreateTaskOptions :=
  createOpts "chronograf-v1-tok" "scr" { wRule with ID := "chronograf-v1-tok" }

/-- The task returned by Create on the concrete inputs. -/
def wCreated : Task :=
  { ID := "chronograf-v1-tok"
    Href := "/kapacitor/v1/tasks/chronograf-v1-tok"
    HrefOutput := "/kapacitor/v1/tasks/chronograf-v1-tok/output"
    Rule := { wRule with ID := "chronograf-v1-tok" }
    TICKScript := "scr" }

/-- The concrete stub engine whose fetch endpoint fails. -/
def wEngineGetFail : Engine Unit := { wEngine with getTask := fun _ s => (.error "gone", s) }

/-- A concrete remote task whose script the concrete reverser rejects. -/
def wTaskBad : RemoteTask := { wTask with TICKscript := "???" }

/-- The concrete stub engine whose fetch endpoint reports the task with
the unparseable script. -/
def wEngineBad : Engine Unit := { wEngine with getTask := fun _ s => (.ok wTaskBad, s) }

lemma applyOpts_id (t : EngineTask) (opts : UpdateTaskOptions) :
    (applyOpts t opts).id = t.id := rfl

lemma findTask_map_replace (href : String) (t t' : EngineTask) (hid : t'.id = t.id) :
    ∀ s : EngineState, findTask s href = some t →
      findTask (s.map (fun u => if hrefOf u.id == href then t' else u)) href = some t'
  | [], hfind => by simp [findTask] at hfind
  | u :: us, hfind => by
    unfold findTask at hfind ⊢
    rw [List.map_cons]
    by_cases h : (hrefOf u.id == href) = true
    · rw [List.find?_cons_of_pos (p := fun v : EngineTask => hrefOf v.id == href) _ h] at hfind
      have hu : u = t := Option.some.inj hfind
      have ht' : (hrefOf t'.id == href) = true := by rw [hid, ← hu]; exact h
      rw [if_pos h, List.find?_cons_of_pos (p := fun v : EngineTask => hrefOf v.id == href) _ ht']
    · rw [List.find?_cons_of_neg (p := fun v : EngineTask => hrefOf v.id == href) _ h] at hfind
      rw [if_neg h, List.find?_cons_of_neg (p := fun v : EngineTask => hrefOf v.id == href) _ h]
      exact findTask_map_replace href t t' hid us hfind

lemma mapInsert_of_not_mem {α : Type} (m : List (String × α)) (k : String) (v : α)
    (h : m.any (fun p => p.1 == k) = false) : mapInsert m k v = m ++ [(k, v)] := by
  simp [mapInsert, h]

lemma foldl_mapInsert {α : Type} (f : RemoteTask → α) (tasks : List RemoteTask) :
    ∀ acc : List (String × α),
      (tasks.map (fun t => t.ID)).Nodup →
      (∀ t ∈ tasks, acc.any (fun p => p.1 == t.ID) = false) →
      tasks.foldl (fun m t => mapInsert m t.ID (f t)) acc
        = acc ++ tasks.map (fun t => (t.ID, f t)) := by
  induction tasks with
  | nil => intro acc _ _; simp
  | cons t ts ih =>
    intro acc hnodup hacc
    have h1 : acc.any (fun p => p.1 == t.ID) = false := hacc t (by simp)
    rw [List.foldl_cons, mapInsert_of_not_mem _ _ _ h1]
    have hnd : (ts.map (fun u => u.ID)).Nodup := (List.nodup_cons.1 (by simpa using hnodup)).2
    have hhead : ∀ u ∈ ts, t.ID ≠ u.ID := by
      intro u hu he
      have : t.ID ∉ ts.map (fun v => v.ID) := (List.nodup_cons.1 (by simpa using hnodup)).1
      exact this (he ▸ List.mem_map.2 ⟨u, hu, rfl⟩)
    have hacc' : ∀ u ∈ ts, (acc ++ [(t.ID, f t)]).any (fun p => p.1 == u.ID) = false := by
      intro u hu
      have h2 : acc.any (fun p => p.1 == u.ID) = false := hacc u (List.mem_cons_of_mem _ hu)
      simp only [List.any_append, h2, List.any_cons, List.any_nil, Bool.false_or, Bool.or_false]
      simpa using hhead u hu
    rw [ih (acc ++ [(t.ID, f t)]) hnd hacc']
    simp

lemma mem_mapInsert {α : Type} {m : List (String × α)} {k : String} {v : α} {p : String × α}
    (h : p ∈ mapInsert m k v) : p ∈ m ∨ p = (k, v) := by
  unfold mapInsert at h
  split at h
  · obtain ⟨q, hq, hpq⟩ := List.mem_map.1 h
    by_cases hc : q.1 == k
    · right
      rw [← hpq]
      simp [hc]
    · left
      rw [← hpq]
      simpa [hc] using hq
  · rcases List.mem_append.1 h with h | h
    · exact .inl h
    · right
      simpa using h

lemma mem_foldl_mapInsert {α : Type} (f : RemoteTask → α) (tasks : List RemoteTask) :
    ∀ (acc : List (String × α)) (p : String × α),
      p ∈ tasks.foldl (fun m t => mapInsert m t.ID (f t)) acc →
      p ∈ acc ∨ ∃ t ∈ tasks, p = (t.ID, f t) := by
  induction tasks with
  | nil => intro acc p h; exact .inl (by simpa using h)
  | cons t ts ih =>
    intro acc p h
    rcases ih (mapInsert acc t.ID (f t)) p (by simpa using h) with h' | ⟨u, hu, hp⟩
    · rcases mem_mapInsert h' with h'' | h''
      · exact .inl h''
      · exact .inr ⟨t, by simp, h''⟩
    · exact .inr ⟨u, List.mem_cons_of_mem _ hu, hp⟩

lemma ruleFromScript_ID (rev : String → Except String AlertRule) (taskID script : String) :
    (ruleFromScript rev taskID script).ID = taskID := by
  unfold ruleFromScript
  split <;> rfl

lemma ruleFromScript_TICKScript (rev : String → Except String AlertRule) (taskID script : String) :
    (ruleFromScript rev taskID script).TICKScript = script := by
  unfold ruleFromScript
  split <;> rfl

/-- C9: every orchestrator operation leaves the receiver configuration
(URL, Username, Password, ID, Ticker) unchanged: the Client component of
each operation's result equals the input Client, so the orchestrator
holds no mutable state across calls. -/
theorem client_stateless {σ : Type} (c : Client) (eng : Engine σ)
    (rule : AlertRule) (href : String) (id : String)
    (rev : String → Except String AlertRule) (s : σ) :
    (c.Create eng rule s).client = c ∧
    (c.Delete eng href s).client = c ∧
    (c.Enable eng href s).client = c ∧
    (c.Disable eng href s).client = c ∧
    (c.Update eng href rule s).client = c ∧
    (c.Get rev eng id s).client = c ∧
    (c.All rev eng s).client = c ∧
    (c.Status eng href s).client = c ∧
    (c.AllStatus eng s).client = c := by
  refine ⟨?_, ?_, ?_, ?_, ?_, ?_, ?_, ?_, ?_⟩
  all_goals
    simp only [Client.Create, Client.Delete, Client.Enable, Client.Disable, Client.Update,
      Client.updateStatus, Client.Get, Client.All, Client.Status, Client.AllStatus]
  all_goals repeat' split
  all_goals rfl

/-- C6: Enable and Disable issue exactly one update call whose payload
sets only the status field, to enabled and disabled respectively, with
no script, kind or bindings present, and the task they return carries
the id, references and script of the engine response while the Rule
field is left at its zero value. -/
theorem enable_disable_status_only {σ : Type} (c : Client) (eng : Engine σ)
    (href : String) (s : σ)
    (hconn : c.kapaClient eng = Except.ok ()) :
    (({ Status := some TaskStatus.enabled } : UpdateTaskOptions).TICKscript = none ∧
     ({ Status := some TaskStatus.enabled } : UpdateTaskOptions).Typ = none ∧
     ({ Status := some TaskStatus.enabled } : UpdateTaskOptions).DBRPs = none) ∧
    (c.Enable eng href s).calls =
      [Call.updateTask { Href := href } { Status := some TaskStatus.enabled }] ∧
    (c.Disable eng href s).calls =
      [Call.updateTask { Href := href } { Status := some TaskStatus.disabled }] ∧
    (∀ task s', eng.updateTask { Href := href } { Status := some TaskStatus.enabled } s = (.ok task, s') →
      (c.Enable eng href s).val = Except.ok
        { ID := task.ID
          Href := task.Link.Href
          HrefOutput := c.HrefOutput task.ID
          Rule := {}
          TICKScript := task.TICKscript }) ∧
    (∀ task s', eng.updateTask { Href := href } { Status := some TaskStatus.disabled } s = (.ok task, s') →
      (c.Disable eng href s).val = Except.ok
        { ID := task.ID
          Href := task.Link.Href
          HrefOutput := c.HrefOutput task.ID
          Rule := {}
          TICKScript := task.TICKscript }) := by
  refine ⟨⟨rfl, rfl, rfl⟩, ?_, ?_, ?_, ?_⟩
  · simp only [Client.Enable, Client.updateStatus, hconn]
    split <;> rfl
  · simp only [Client.Disable, Client.updateStatus, hconn]
    split <;> rfl
  · intro task s' h
    simp [Client.Enable, Client.updateStatus, hconn, h]
  · intro task s' h
    simp [Client.Disable, Client.updateStatus, hconn, h]

/-- C6 witness: at the concrete client, engine and reference the
hypothesis holds and the theorem applies. -/
theorem enable_disable_status_only_witness :
    wClient.kapaClient wEngine = Except.ok () ∧
    ((({ Status := some TaskStatus.enabled } : UpdateTaskOptions).TICKscript = none ∧
      ({ Status := some TaskStatus.enabled } : UpdateTaskOptions).Typ = none ∧
      ({ Status := some TaskStatus.enabled } : UpdateTaskOptions).DBRPs = none) ∧
     (wClient.Enable wEngine "/kapacitor/v1/tasks/chronograf-v1-tok" ()).calls =
       [Call.updateTask { Href := "/kapacitor/v1/tasks/chronograf-v1-tok" }
         { Status := some TaskStatus.enabled }] ∧
     (wClient.Disable wEngine "/kapacitor/v1/tasks/chronograf-v1-tok" ()).calls =
       [Call.updateTask { Href := "/kapacitor/v1/tasks/chronograf-v1-tok" }
         { Status := some TaskStatus.disabled }] ∧
     (∀ task s', wEngine.updateTask { Href := "/kapacitor/v1/tasks/chronograf-v1-tok" }
         { Status := some TaskStatus.enabled } () = (.ok task, s') →
       (wClient.Enable wEngine "/kapacitor/v1/tasks/chronograf-v1-tok" ()).val = Except.ok
         { ID := task.ID
           Href := task.Link.Href
           HrefOutput := wClient.HrefOutput task.ID
           Rule := {}
           TICKScript := task.TICKscript }) ∧
     (∀ task s', wEngine.updateTask { Href := "/kapacitor/v1/tasks/chronograf-v1-tok" }
         { Status := some TaskStatus.disabled } () = (.ok task, s') →
       (wClient.Disable wEngine "/kapacitor/v1/tasks/chronograf-v1-tok" ()).val = Except.ok
         { ID := task.ID
           Href := task.Link.Href
           HrefOutput := wClient.HrefOutput task.ID
           Rule := {}
           TICKScript := task.TICKscript })) :=
  ⟨rfl, enable_disable_status_only wClient wEngine "/kapacitor/v1/tasks/chronograf-v1-tok" () rfl⟩

/-- C7: when the identity allocator fails in Create, or the translator
fails in Create or Update, the operation returns that error with no
remote engine call issued and the engine state unchanged. -/
theorem no_call_on_dependency_failure {σ : Type} (c : Client) (eng : Engine σ)
    (rule : AlertRule) (href : String) (s : σ)
    (hconn : c.kapaClient eng = Except.ok ()) :
    (∀ e, c.ID.Generate = Except.error e →
      c.Create eng rule s = ⟨Except.error (Err.external e), [], c, s⟩) ∧
    (∀ tok e, c.ID.Generate = Except.ok tok → c.Ticker.Generate rule = Except.error e →
      c.Create eng rule s = ⟨Except.error (Err.external e), [], c, s⟩) ∧
    (∀ e, c.Ticker.Generate rule = Except.error e →
      c.Update eng href rule s = ⟨Except.error (Err.external e), [], c, s⟩) := by
  refine ⟨?_, ?_, ?_⟩
  · intro e h
    simp [Client.Create, hconn, h]
  · intro tok e h1 h2
    simp [Client.Create, hconn, h1, h2]
  · intro e h
    simp [Client.Update, hconn, h]

/-- C7 witness: with the failing allocator and failing translator stubs
the hypotheses hold concretely and the theorem applies at each. -/
theorem no_call_on_dependency_failure_witness :
    (wClientGenFail.kapaClient wEngine = Except.ok () ∧
     wClientGenFail.ID.Generate = Except.error "nogen" ∧
     wClientGenFail.Create wEngine wRule () = ⟨Except.error (Err.external "nogen"), [], wClientGenFail, ()⟩) ∧
    (wClientTransFail.kapaClient wEngine = Except.ok () ∧
     wClientTransFail.Ticker.Generate wRule = Except.error "notrans" ∧
     wClientTransFail.Create wEngine wRule () = ⟨Except.error (Err.external "notrans"), [], wClientTransFail, ()⟩ ∧
     wClientTransFail.Update wEngine "/h" wRule () = ⟨Except.error (Err.external "notrans"), [], wClientTransFail, ()⟩) :=
  ⟨⟨rfl, rfl,
    (no_call_on_dependency_failure wClientGenFail wEngine wRule "/h" () rfl).1 "nogen" rfl⟩,
   ⟨rfl, rfl,
    (no_call_on_dependency_failure wClientTransFail wEngine wRule "/h" () rfl).2.1 "tok" "notrans" rfl rfl,
    (no_call_on_dependency_failure wClientTransFail wEngine wRule "/h" () rfl).2.2 "notrans" rfl⟩⟩

/-- C5: the task kind is classified solely from the rule's query raw
text: toTask yields a stream task exactly when the raw text is empty and
a batch task otherwise, and both the create call issued by Create and
the first update call issued by Update carry the kind computed by toTask
from the rule's query. -/
theorem kind_from_rawtext {σ : Type} (c : Client) (eng : Engine σ)
    (rule : AlertRule) (href : String) (s : σ) (q : QueryConfig)
    (opts : CreateTaskOptions) (l : Link) (uopts : UpdateTaskOptions)
    (hc : Call.createTask opts ∈ (c.Create eng rule s).calls)
    (hu : (c.Update eng href rule s).calls.head? = some (Call.updateTask l uopts)) :
    toTask q = (if q.RawText = "" then TaskType.stream else TaskType.batch) ∧
    opts.Typ = toTask rule.Query ∧
    uopts.Typ = some (toTask rule.Query) := by
  refine ⟨rfl, ?_, ?_⟩
  · simp only [Client.Create] at hc
    repeat' split at hc
    all_goals simp_all [createOpts]
  · simp only [Client.Update] at hu
    repeat' split at hu
    all_goals simp only [List.head?_cons, List.head?_nil] at hu
    all_goals
      first
        | exact Option.noConfusion hu
        | (injection hu with hu'
           injection hu' with h1 h2
           subst h2
           rfl)

/-- C5 witness: on the concrete inputs the create call and the first
update call are issued with the concrete payloads and the theorem
applies. -/
theorem kind_from_rawtext_witness :
    Call.createTask wCreateOpts ∈ (wClient.Create wEngine wRule ()).calls ∧
    (wClient.Update wEngine "/h" wRule ()).calls.head? =
      some (Call.updateTask { Href := "/h" } (updateOpts "scr" wRule)) ∧
    (toTask wRule.Query =
      (if wRule.Query.RawText = "" then TaskType.stream else TaskType.batch) ∧
     wCreateOpts.Typ = toTask wRule.Query ∧
     (updateOpts "scr" wRule).Typ = some (toTask wRule.Query)) :=
  ⟨by decide, by decide,
   kind_from_rawtext wClient wEngine wRule "/h" () wRule.Query wCreateOpts
     { Href := "/h" } (updateOpts "scr" wRule) (by decide) (by decide)⟩

/-- C3: on a successful Create the identifier passed to the single
create call is the reserved prefix concatenated with the allocator
token, the returned Task's ID and its embedded rule's ID both equal
this prefixed identifier, and every identifier passed to a create call
is this prefixed identifier, hence carries the prefix. -/
theorem create_prefixed {σ : Type} (c : Client) (eng : Engine σ)
    (rule : AlertRule) (s : σ) (t : Task) (tok : String)
    (hid : c.ID.Generate = Except.ok tok)
    (hok : (c.Create eng rule s).val = Except.ok t) :
    t.ID = Prefix ++ tok ∧
    t.Rule.ID = Prefix ++ tok ∧
    ∀ opts, Call.createTask opts ∈ (c.Create eng rule s).calls →
      opts.ID = Prefix ++ tok := by
  simp only [Client.Create] at hok ⊢
  repeat' split at hok
  all_goals simp_all [createOpts]
  all_goals
    subst hok
    exact ⟨rfl, rfl⟩

/-- C3 witness: the concrete Create succeeds and produces the concrete
prefixed task, so the theorem applies. -/
theorem create_prefixed_witness :
    wClient.ID.Generate = Except.ok "tok" ∧
    (wClient.Create wEngine wRule ()).val = Except.ok wCreated ∧
    (wCreated.ID = Prefix ++ "tok" ∧
     wCreated.Rule.ID = Prefix ++ "tok" ∧
     ∀ opts, Call.createTask opts ∈ (wClient.Create wEngine wRule ()).calls →
       opts.ID = Prefix ++ "tok") :=
  ⟨rfl, rfl,
   create_prefixed wClient wEngine wRule () wCreated "tok" rfl rfl⟩

/-- C2: Get maps a failed task fetch to the alert-not-found sentinel
with the zero-value rule, while a reverse-translation failure on a
fetched task is not an error: Get returns, with no error, a rule whose
ID and Name are the task's identifier and whose TICKScript holds the
fetched script verbatim. -/
theorem get_asymmetry {σ : Type} (c : Client) (rev : String → Except String AlertRule)
    (eng : Engine σ) (id : String) (s : σ)
    (hconn : c.kapaClient eng = Except.ok ()) :
    (∀ e s', eng.getTask { Href := c.Href id } s = (.error e, s') →
      c.Get rev eng id s =
        ⟨({}, some Err.alertNotFound), [Call.getTask { Href := c.Href id }], c, s'⟩) ∧
    (∀ task s' e, eng.getTask { Href := c.Href id } s = (.ok task, s') →
      rev task.TICKscript = .error e →
      c.Get rev eng id s =
        ⟨({ ID := task.ID, Name := task.ID, TICKScript := task.TICKscript }, none),
         [Call.getTask { Href := c.Href id }], c, s'⟩) := by
  constructor
  · intro e s' h
    simp [Client.Get, hconn, h]
  · intro task s' e h hrev
    simp [Client.Get, ruleFromScript, hconn, h, hrev]

/-- C2 witness: one concrete engine fails the fetch and Get reports
alert-not-found with the zero rule; another serves a task with an
unparseable script and Get degrades without error. -/
theorem get_asymmetry_witness :
    (wClient.kapaClient wEngineGetFail = Except.ok () ∧
     wEngineGetFail.getTask { Href := wClient.Href "x" } () = (.error "gone", ()) ∧
     wClient.Get wRev wEngineGetFail "x" () =
       ⟨({}, some Err.alertNotFound), [Call.getTask { Href := wClient.Href "x" }], wClient, ()⟩) ∧
    (wClient.kapaClient wEngineBad = Except.ok () ∧
     wEngineBad.getTask { Href := wClient.Href "x" } () = (.ok wTaskBad, ()) ∧
     wRev wTaskBad.TICKscript = .error "unparseable" ∧
     wClient.Get wRev wEngineBad "x" () =
       ⟨({ ID := wTaskBad.ID, Name := wTaskBad.ID, TICKScript := wTaskBad.TICKscript }, none),
        [Call.getTask { Href := wClient.Href "x" }], wClient, ()⟩) :=
  ⟨⟨rfl, rfl,
    (get_asymmetry wClient wRev wEngineGetFail "x" () rfl).1 "gone" () rfl⟩,
   ⟨rfl, rfl, rfl,
    (get_asymmetry wClient wRev wEngineBad "x" () rfl).2 wTaskBad () "unparseable" rfl rfl⟩⟩

/-- C10: when reverse translation succeeds the reconstructed rule's ID
and TICKScript are overwritten with the task identifier and the fetched
script; hence every rule returned by a successful Get and every rule in
All's mapping carries the task identifier as its ID and the deployed
script as its TICKScript. -/
theorem id_script_overwrite {σ : Type} (c : Client) (rev : String → Except String AlertRule)
    (eng : Engine σ) (id : String) (s : σ)
    (hconn : c.kapaClient eng = Except.ok ()) :
    (∀ scr i rule', rev scr = .ok rule' →
      ruleFromScript rev i scr = { rule' with ID := i, TICKScript := scr }) ∧
    (∀ task s', eng.getTask { Href := c.Href id } s = (.ok task, s') →
      (c.Get rev eng id s).val.1.ID = task.ID ∧
      (c.Get rev eng id s).val.1.TICKScript = task.TICKscript ∧
      (c.Get rev eng id s).val.2 = none) ∧
    (∀ m, (c.All rev eng s).val = Except.ok m →
      ∀ p ∈ m, p.2.ID = p.1 ∧
        ∃ t : RemoteTask, p = (t.ID, ruleFromScript rev t.ID t.TICKscript) ∧
          p.2.TICKScript = t.TICKscript) := by
  refine ⟨?_, ?_, ?_⟩
  · intro scr i rule' hrev
    simp [ruleFromScript, hrev]
  · intro task s' h
    simp [Client.Get, hconn, h, ruleFromScript_ID, ruleFromScript_TICKScript]
  · intro m hm p hp
    simp only [Client.All, hconn] at hm
    rcases hl : eng.listTasks ({} : ListTasksOptions) s with ⟨res, s2⟩
    rw [hl] at hm
    cases res with
    | error e => simp at hm
    | ok tasks =>
      simp at hm
      subst hm
      rcases mem_foldl_mapInsert
          (fun t => ruleFromScript rev t.ID t.TICKscript) tasks [] p hp with h | ⟨t, _ht, hpt⟩
      · simp at h
      · subst hpt
        exact ⟨ruleFromScript_ID rev t.ID t.TICKscript,
               ⟨t, rfl, ruleFromScript_TICKScript rev t.ID t.TICKscript⟩⟩

/-- C10 witness: the theorem applies at the concrete client, reverser
and engine. -/
theorem id_script_overwrite_witness :
    wClient.kapaClient wEngine = Except.ok () ∧
    ((∀ scr i rule', wRev scr = .ok rule' →
       ruleFromScript wRev i scr = { rule' with ID := i, TICKScript := scr }) ∧
     (∀ task s', wEngine.getTask { Href := wClient.Href "x" } () = (.ok task, s') →
       (wClient.Get wRev wEngine "x" ()).val.1.ID = task.ID ∧
       (wClient.Get wRev wEngine "x" ()).val.1.TICKScript = task.TICKscript ∧
       (wClient.Get wRev wEngine "x" ()).val.2 = none) ∧
     (∀ m, (wClient.All wRev wEngine ()).val = Except.ok m →
       ∀ p ∈ m, p.2.ID = p.1 ∧
         ∃ t : RemoteTask, p = (t.ID, ruleFromScript wRev t.ID t.TICKscript) ∧
           p.2.TICKScript = t.TICKscript)) :=
  ⟨rfl, id_script_overwrite wClient wRev wEngine "x" () rfl⟩

/-- C4: over a list of N remote tasks with distinct identifiers, All
returns a mapping of exactly N entries keyed by task identifier, each
task converted independently by ruleFromScript: a reverse failure on one
script degrades only that entry to the identifier-plus-verbatim-script
rule, and a reverse success yields the reconstructed rule, without
affecting any other entry. -/
theorem all_isolated {σ : Type} (c : Client) (rev : String → Except String AlertRule)
    (eng : Engine σ) (s : σ) (tasks : List RemoteTask) (s' : σ)
    (hconn : c.kapaClient eng = Except.ok ())
    (hlist : eng.listTasks ({} : ListTasksOptions) s = (.ok tasks, s'))
    (hnodup : (tasks.map (fun t => t.ID)).Nodup) :
    (c.All rev eng s).val =
      Except.ok (tasks.map (fun t => (t.ID, ruleFromScript rev t.ID t.TICKscript))) ∧
    (∀ m, (c.All rev eng s).val = Except.ok m → m.length = tasks.length) ∧
    (∀ i scr e, rev scr = .error e →
      ruleFromScript rev i scr = { ID := i, Name := i, TICKScript := scr }) ∧
    (∀ i scr rule', rev scr = .ok rule' →
      ruleFromScript rev i scr = { rule' with ID := i, TICKScript := scr }) := by
  have hval : (c.All rev eng s).val =
      Except.ok (tasks.map (fun t => (t.ID, ruleFromScript rev t.ID t.TICKscript))) := by
    simp only [Client.All, hconn, hlist]
    rw [foldl_mapInsert (fun t => ruleFromScript rev t.ID t.TICKscript) tasks [] hnodup
      (by simp)]
    simp
  refine ⟨hval, ?_, ?_, ?_⟩
  · intro m hm
    rw [hval] at hm
    cases hm
    simp
  · intro i scr e hrev
    simp [ruleFromScript, hrev]
  · intro i scr rule' hrev
    simp [ruleFromScript, hrev]

/-- C4 witness: the theorem applies to the concrete engine listing one
task whose script the concrete reverser rejects, yielding one degraded
entry. -/
theorem all_isolated_witness :
    wClient.kapaClient wEngine = Except.ok () ∧
    wEngine.listTasks ({} : ListTasksOptions) () = (.ok [wTask], ()) ∧
    ([wTask].map (fun t => t.ID)).Nodup ∧
    ((wClient.All wRev wEngine ()).val =
       Except.ok ([wTask].map (fun t => (t.ID, ruleFromScript wRev t.ID t.TICKscript))) ∧
     (∀ m, (wClient.All wRev wEngine ()).val = Except.ok m → m.length = [wTask].length) ∧
     (∀ i scr e, wRev scr = .error e →
       ruleFromScript wRev i scr = { ID := i, Name := i, TICKScript := scr }) ∧
     (∀ i scr rule', wRev scr = .ok rule' →
       ruleFromScript wRev i scr = { rule' with ID := i, TICKScript := scr })) :=
  ⟨rfl, rfl, by decide,
   all_isolated wClient wRev wEngine () [wTask] () rfl rfl (by decide)⟩

/-- C8: AllStatus issues a single list call whose field projection
requests exactly the status field, and over a response with distinct
task identifiers returns one entry per task mapping the identifier to
its status label rendered as a string; the key list equals the list of
task identifiers and no translation is involved. -/
theorem allstatus_projection {σ : Type} (c : Client) (eng : Engine σ) (s : σ)
    (tasks : List RemoteTask) (s' : σ)
    (hconn : c.kapaClient eng = Except.ok ())
    (hlist : eng.listTasks { Fields := ["status"] } s = (.ok tasks, s'))
    (hnodup : (tasks.map (fun t => t.ID)).Nodup) :
    (c.AllStatus eng s).calls = [Call.listTasks { Fields := ["status"] }] ∧
    (c.AllStatus eng s).val =
      Except.ok (tasks.map (fun t => (t.ID, t.Status.toString))) ∧
    (∀ m, (c.AllStatus eng s).val = Except.ok m →
      m.map (fun p => p.1) = tasks.map (fun t => t.ID)) := by
  have hval : (c.AllStatus eng s).val =
      Except.ok (tasks.map (fun t => (t.ID, t.Status.toString))) := by
    simp only [Client.AllStatus, hconn, hlist]
    rw [foldl_mapInsert (fun t => t.Status.toString) tasks [] hnodup (by simp)]
    simp
  refine ⟨?_, hval, ?_⟩
  · simp only [Client.AllStatus, hconn, hlist]
  · intro m hm
    rw [hval] at hm
    cases hm
    simp

/-- C8 witness: the theorem applies to the concrete engine listing one
task. -/
theorem allstatus_projection_witness :
    wClient.kapaClient wEngine = Except.ok () ∧
    wEngine.listTasks { Fields := ["status"] } () = (.ok [wTask], ()) ∧
    ([wTask].map (fun t => t.ID)).Nodup ∧
    ((wClient.AllStatus wEngine ()).calls = [Call.listTasks { Fields := ["status"] }] ∧
     (wClient.AllStatus wEngine ()).val =
       Except.ok ([wTask].map (fun t => (t.ID, t.Status.toString))) ∧
     (∀ m, (wClient.AllStatus wEngine ()).val = Except.ok m →
       m.map (fun p => p.1) = [wTask].map (fun t => t.ID))) :=
  ⟨rfl, rfl, by decide,
   allstatus_projection wClient wEngine () [wTask] () rfl rfl (by decide)⟩

/-- C1: Update first issues a single update call carrying the new
script, the new binding, the recomputed kind and status disabled.  If
that call fails, Update returns the error having issued no other call,
so no enable is attempted.  If it succeeds, exactly one enable call
(a pure status change to enabled on the same reference) follows, and if
that enable call fails Update returns its error with no retry.  On the
engine stubbed to fail only on the enable step, Update returns the
enable error and the stored task is left disabled with the new script,
kind and binding applied. -/
theorem update_two_phase (c : Client) (href : String) (rule : AlertRule) (script : String)
    (σ : Type) (eng : Engine σ) (s : σ) (s0 : EngineState) (t : EngineTask)
    (hconn : c.kapaClient eng = Except.ok ())
    (hscript : c.Ticker.Generate rule = Except.ok script)
    (hfind : findTask s0 href = some t) :
    ((updateOpts script rule).Status = some TaskStatus.disabled ∧
     (updateOpts script rule).TICKscript = some script ∧
     (updateOpts script rule).Typ = some (toTask rule.Query) ∧
     (updateOpts script rule).DBRPs =
       some [{ Database := rule.Query.Database, RetentionPolicy := rule.Query.RetentionPolicy }]) ∧
    (∀ e s₁, eng.updateTask { Href := href } (updateOpts script rule) s = (.error e, s₁) →
      c.Update eng href rule s =
        ⟨Except.error (Err.external e),
         [Call.updateTask { Href := href } (updateOpts script rule)], c, s₁⟩) ∧
    (∀ task s₁, eng.updateTask { Href := href } (updateOpts script rule) s = (.ok task, s₁) →
      (c.Update eng href rule s).calls =
        Call.updateTask { Href := href } (updateOpts script rule) :: (c.Enable eng href s₁).calls ∧
      (c.Enable eng href s₁).calls =
        [Call.updateTask { Href := href } ({ Status := some TaskStatus.enabled } : UpdateTaskOptions)] ∧
      (∀ e, (c.Enable eng href s₁).val = Except.error e →
        (c.Update eng href rule s).val = Except.error e ∧
        (c.Update eng href rule s).state = (c.Enable eng href s₁).state)) ∧
    ((c.Update enableFailEngine href rule s0).val = Except.error (Err.external "enable failed") ∧
     findTask (c.Update enableFailEngine href rule s0).state href =
       some { t with
              status := TaskStatus.disabled
              script := script
              typ := toTask rule.Query
              dbrps := [{ Database := rule.Query.Database,
                          RetentionPolicy := rule.Query.RetentionPolicy }] }) := by
  refine ⟨⟨rfl, rfl, rfl, rfl⟩, ?_, ?_, ?_⟩
  · intro e s₁ h
    simp [Client.Update, hconn, hscript, h]
  · intro task s₁ h
    refine ⟨?_, ?_, ?_⟩
    · simp only [Client.Update, hconn, hscript, h]
      cases hv : (c.Enable eng href s₁).val with
      | error e => simp [hv]
      | ok t' => simp [hv]
    · simp only [Client.Enable, Client.updateStatus, hconn]
      split <;> rfl
    · intro e hv
      refine ⟨?_, ?_⟩ <;>
        simp [Client.Update, hconn, hscript, h, hv]
  · constructor
    · simp [Client.Update, Client.Enable, Client.updateStatus, Client.kapaClient,
        enableFailEngine, refUpdateTask, updateOpts, hscript, hfind]
    · have hstate : (c.Update enableFailEngine href rule s0).state =
          s0.map (fun u => if hrefOf u.id == href then applyOpts t (updateOpts script rule) else u) := by
        simp [Client.Update, Client.Enable, Client.updateStatus, Client.kapaClient,
          enableFailEngine, refUpdateTask, updateOpts, hscript, hfind]
      rw [hstate]
      exact (findTask_map_replace href t (applyOpts t (updateOpts script rule)) rfl s0 hfind).trans
        (by rfl)

/-- C1 witness: the theorem applies at the concrete client and the
engine stubbed to fail only on the enable step, over the store holding
the concrete task. -/
theorem update_two_phase_witness :
    wClient.kapaClient enableFailEngine = Except.ok () ∧
    wClient.Ticker.Generate wRule = Except.ok "scr" ∧
    findTask [wStored] "/kapacitor/v1/tasks/chronograf-v1-tok" = some wStored ∧
    (((updateOpts "scr" wRule).Status = some TaskStatus.disabled ∧
      (updateOpts "scr" wRule).TICKscript = some "scr" ∧
      (updateOpts "scr" wRule).Typ = some (toTask wRule.Query) ∧
      (updateOpts "scr" wRule).DBRPs =
        some [{ Database := wRule.Query.Database,
                RetentionPolicy := wRule.Query.RetentionPolicy }]) ∧
     (∀ e s₁, enableFailEngine.updateTask { Href := "/kapacitor/v1/tasks/chronograf-v1-tok" }
         (updateOpts "scr" wRule) [wStored] = (.error e, s₁) →
       wClient.Update enableFailEngine "/kapacitor/v1/tasks/chronograf-v1-tok" wRule [wStored] =
         ⟨Except.error (Err.external e),
          [Call.updateTask { Href := "/kapacitor/v1/tasks/chronograf-v1-tok" }
            (updateOpts "scr" wRule)],
          wClient, s₁⟩) ∧
     (∀ task s₁, enableFailEngine.updateTask { Href := "/kapacitor/v1/tasks/chronograf-v1-tok" }
         (updateOpts "scr" wRule) [wStored] = (.ok task, s₁) →
       (wClient.Update enableFailEngine "/kapacitor/v1/tasks/chronograf-v1-tok" wRule
           [wStored]).calls =
         Call.updateTask { Href := "/kapacitor/v1/tasks/chronograf-v1-tok" }
             (updateOpts "scr" wRule) ::
           (wClient.Enable enableFailEngine "/kapacitor/v1/tasks/chronograf-v1-tok" s₁).calls ∧
       (wClient.Enable enableFailEngine "/kapacitor/v1/tasks/chronograf-v1-tok" s₁).calls =
         [Call.updateTask { Href := "/kapacitor/v1/tasks/chronograf-v1-tok" }
           ({ Status := some TaskStatus.enabled } : UpdateTaskOptions)] ∧
       (∀ e, (wClient.Enable enableFailEngine "/kapacitor/v1/tasks/chronograf-v1-tok" s₁).val =
           Except.error e →
         (wClient.Update enableFailEngine "/kapacitor/v1/tasks/chronograf-v1-tok" wRule
             [wStored]).val = Except.error e ∧
         (wClient.Update enableFailEngine "/kapacitor/v1/tasks/chronograf-v1-tok" wRule
             [wStored]).state =
           (wClient.Enable enableFailEngine "/kapacitor/v1/tasks/chronograf-v1-tok" s₁).state)) ∧
     ((wClient.Update enableFailEngine "/kapacitor/v1/tasks/chronograf-v1-tok" wRule
          [wStored]).val =
        Except.error (Err.external "enable failed") ∧
      findTask
          (wClient.Update enableFailEngine "/kapacitor/v1/tasks/chronograf-v1-tok" wRule
              [wStored]).state
          "/kapacitor/v1/tasks/chronograf-v1-tok" =
        some { wStored with
               status := TaskStatus.disabled
               script := "scr"
               typ := toTask wRule.Query
               dbrps := [{ Database := wRule.Query.Database,
                           RetentionPolicy := wRule.Query.RetentionPolicy }] })) :=
  ⟨rfl, rfl, by decide,
   update_two_phase wClient "/kapacitor/v1/tasks/chronograf-v1-tok" wRule "scr" EngineState
     enableFailEngine [wStored] [wStored] wStored rfl rfl (by decide)⟩

end Kapacitor
